import Mathlib

/-!
Shallow embedding of the `iz` directory-listing CLI (src/src/main.rs).

The program's pure core (byte formatting, flag parsing) is translated
directly.  Filesystem-dependent operations (`get_size`, `display_info`,
`display_dir`, the `run` dispatcher) are embedded by making the
filesystem an explicit parameter: a tree of nodes for the recursive size
computation, and per-path observation records for the metadata and
listing code, with every fallible operation returning `Except`.
-/

namespace Iz

/-! ## Byte units (src/src/main.rs lines 5-12)

The source declares f64 constants.  Note `TERABYTE` is written
`1_000_000_000_0.0` in the source, which is 10^10, not the 10^12 its
doc comment (`1 TB = 10^12 bytes`) announces; the embedding keeps the
value the code actually has. -/

def KILOBYTE : Nat := 1000

def MEGABYTE : Nat := 1000000

def GIGABYTE : Nat := 1000000000

/-- Value of the source constant `TERABYTE = 1_000_000_000_0.0` (ten
billion, 10^10): the digit grouping in the source does not match its
doc comment, which says 10^12. -/
def TERABYTE : Nat := 10000000000

/-- Rust `format!("{:.3}", bytes as f64 / divisor)`: the quotient with
exactly three fractional digits, rounded to nearest with ties to even.
We compute it in exact integer arithmetic on `bytes * 1000 / divisor`.
At every input evaluated in the theorems below the division is exact,
so the f64 intermediate in the source introduces no rounding there. -/
def formatScaled (bytes divisor : Nat) (unit : String) : String :=
  let num := bytes * 1000
  let q := num / divisor
  let r := num % divisor
  let m := if divisor < 2 * r then q + 1
           else if 2 * r < divisor then q
           else if q % 2 = 0 then q else q + 1
  let ip := m / 1000
  let fp := m % 1000
  let fs := if fp < 10 then "00" ++ toString fp
            else if fp < 100 then "0" ++ toString fp
            else toString fp
  toString ip ++ "." ++ fs ++ unit

/-- Embedding of `pretty_format_bytes` (src/src/main.rs lines 41-58):
threshold cascade with `>=` comparisons, in the order TB, GB, MB, KB,
then the bare integer with a `B` suffix. -/
def pretty_format_bytes (bytes : Nat) : String :=
  if TERABYTE ≤ bytes then formatScaled bytes TERABYTE "TB"
  else if GIGABYTE ≤ bytes then formatScaled bytes GIGABYTE "GB"
  else if MEGABYTE ≤ bytes then formatScaled bytes MEGABYTE "MB"
  else if KILOBYTE ≤ bytes then formatScaled bytes KILOBYTE "KB"
  else toString bytes ++ "B"

/-! ## Filesystem trees and `get_size` (src/src/main.rs lines 23-39)

A `Node` is what one path denotes: a regular file with a byte length, a
directory with a list of children (`get_size` never looks at child
names, only at what each child path denotes), or a symbolic link
carrying its own link length and an optional target (`none` models a
dangling link).  In the source, `Path::is_dir` and `Path::metadata`
both follow the whole symlink chain, so `get_size` on a symlink behaves
exactly like `get_size` on its target, and a dangling link makes
`metadata()` fail; `get_size` never reads the link's own length. -/

inductive Node where
  | file (len : Nat)
  | dir (children : List Node)
  | symlink (selfLen : Nat) (target : Option Node)
deriving Repr

mutual

/-- Embedding of `get_size`.  On a directory it sums over the children
as the source's `for entry in read_dir` loop does; on a file it is
`metadata().len()`; on a symlink both the `is_dir` test and
`metadata()` follow the link, so the result is that of the target, and
a dangling link is the `metadata()` error propagated by `?`. -/
def getSize : Node → Except String Nat
  | Node.file l => Except.ok l
  | Node.dir cs => getSizeList cs
  | Node.symlink _ none => Except.error "NotFound"
  | Node.symlink _ (some t) => getSize t

/-- The summation loop of `get_size` over a directory's children: each
child that is a directory (after following links) is recursed into, any
other child contributes its `metadata().len()`; the first error aborts
via `?`.  Per child this is exactly `getSize` of the child node. -/
def getSizeList : List Node → Except String Nat
  | [] => Except.ok 0
  | c :: rest => do
      let s ← getSize c
      let r ← getSizeList rest
      pure (s + r)

end

mutual

/-- A tree containing only regular files and subdirectories. -/
def plain : Node → Bool
  | Node.file _ => true
  | Node.dir cs => plainList cs
  | Node.symlink _ _ => false

def plainList : List Node → Bool
  | [] => true
  | c :: rest => plain c && plainList rest

end

mutual

/-- Sum of the byte lengths of all files transitively under a node. -/
def totalLen : Node → Nat
  | Node.file l => l
  | Node.dir cs => totalLenList cs
  | Node.symlink _ _ => 0

def totalLenList : List Node → Nat
  | [] => 0
  | c :: rest => totalLen c + totalLenList rest

end

/-! ## Directory enumeration and `display_dir` (src/src/main.rs lines 87-111)

`read_dir` yields a sequence of `io::Result<DirEntry>` items; we embed
it as a `List (Except String Entry)`.  An `Entry` records the
observations the loop makes on it: its file name, its path rendering,
and the result of its `file_type()` call (`Except`, since that call is
fallible and its failure propagates out of `display_dir` via `?`). -/

structure Entry where
  name : String
  path : String
  fileTypeIsDir : Except String Bool
deriving Repr

/-- Rust `str::starts_with(pat)` for the string patterns the program
uses, embedded as a prefix test on the character list (the builtin
`String.startsWith` is byte-level and does not reduce in the kernel). -/
def startsWithStr (s pat : String) : Bool :=
  pat.data.isPrefixOf s.data

/-- The collection loop of `display_dir`: an `Err` item from `read_dir`
is silently dropped (`if let Ok(entry)`), a dot-name is skipped unless
`show_dots`, a `file_type()` failure aborts the whole call via `?`, and
otherwise the entry's path is appended to `folders` or to `files`
according to `file_type().is_dir()`. -/
def collectEntries (show_dots : Bool) :
    List (Except String Entry) → List String → List String →
    Except String (List String × List String)
  | [], folders, files => Except.ok (folders, files)
  | e :: rest, folders, files =>
      match e with
      | Except.error _ => collectEntries show_dots rest folders files
      | Except.ok entry =>
          if !show_dots && startsWithStr entry.name "." then
            collectEntries show_dots rest folders files
          else
            match entry.fileTypeIsDir with
            | Except.error msg => Except.error msg
            | Except.ok b =>
                if b then collectEntries show_dots rest (folders ++ [entry.path]) files
                else collectEntries show_dots rest folders (files ++ [entry.path])

/-- Rendering of one folder line: `println!("{spacing}\x1b[36m{}\x1b[0m", ...)`. -/
def folderLine (spacing p : String) : String :=
  spacing ++ ("\x1b[36m" ++ (p ++ "\x1b[0m"))

/-- Rendering of one file line: `println!("{spacing}\x1b[39m{}\x1b[0m", ...)`. -/
def fileLine (spacing p : String) : String :=
  spacing ++ ("\x1b[39m" ++ (p ++ "\x1b[0m"))

/-- Embedding of `display_dir` given the entry sequence its `read_dir`
produced: collect the two partitions, then print all folder lines
first, then all file lines, each on its own line. -/
def displayDirEntries (entries : List (Except String Entry)) (show_dots : Bool)
    (spacing : String) : Except String (List String) :=
  match collectEntries show_dots entries [] [] with
  | Except.error e => Except.error e
  | Except.ok (folders, files) =>
      Except.ok (folders.map (folderLine spacing) ++ files.map (fileLine spacing))

/-- The successfully read entries that survive the dot filter, in
enumeration order: the candidates `display_dir` partitions. -/
def surviving (show_dots : Bool) : List (Except String Entry) → List Entry
  | [] => []
  | Except.error _ :: rest => surviving show_dots rest
  | Except.ok entry :: rest =>
      if !show_dots && startsWithStr entry.name "." then surviving show_dots rest
      else entry :: surviving show_dots rest

def isOkTrue : Except String Bool → Bool
  | Except.ok true => true
  | _ => false

def isOkFalse : Except String Bool → Bool
  | Except.ok false => true
  | _ => false

/-! ## Per-path metadata observations, `display_info` and `display_dir`
(src/src/main.rs lines 60-111)

A `PathMeta` records, for one existing path, the outcome of every
filesystem observation the program can make on it: the three
classification predicates (which follow symlinks, except `is_symlink`),
the `read_dir` outcome (used both for the entry count in `display_info`
and for the listing in `display_dir`), the `get_size` outcome, and the
`symlink_metadata` outcome reduced to the read-only bit. -/

structure PathMeta where
  isDir : Bool
  isFile : Bool
  isSymlink : Bool
  readDir : Except String (List (Except String Entry))
  sizeResult : Except String Nat
  symlinkMeta : Except String Bool

/-- The single stdout line `display_info` assembles after its spacing
prefix: the `Type:` field by the priority chain Dir, File, Sym, `???`;
for a directory the entry count (`???` when `read_dir` fails, else the
number of items the iterator yields, `Err` items included); then the
formatted `get_size` result and the read-only bit, where a `get_size`
or `symlink_metadata` failure propagates via `?`. -/
def displayInfoCore (m : PathMeta) : Except String String :=
  let ft := if m.isDir then "Dir"
            else if m.isFile then "File"
            else if m.isSymlink then "Sym"
            else "???"
  let head := "Type: `" ++ ft ++ "` - "
  let head := if m.isDir then
      head ++ "Entries Count: " ++
        (match m.readDir with
         | Except.ok entries => toString entries.length
         | Except.error _ => "???") ++ " - "
    else head
  do
    let sz ← m.sizeResult
    let ro ← m.symlinkMeta
    pure (head ++ "Size: " ++ pretty_format_bytes sz ++ " - ReadOnly: " ++
      (if ro then "true" else "false"))

/-- Embedding of `display_info`: the spacing argument is printed first
and the rest of the line does not depend on it. -/
def display_info (m : PathMeta) (spacing : String) : Except String String :=
  (displayInfoCore m).map (fun core => spacing ++ core)

/-- Embedding of `display_dir` on a path: a `read_dir` failure
propagates via `?`, otherwise the entry loop runs. -/
def display_dir (m : PathMeta) (show_dots : Bool) (spacing : String) :
    Except String (List String) :=
  match m.readDir with
  | Except.error e => Except.error e
  | Except.ok entries => displayDirEntries entries show_dots spacing

/-! ## Flag parsing (src/src/main.rs lines 118-161)

`run` folds over the argument list: `--help` returns immediately with
usage printed; the exact tokens `-a`, `-i`, `-I` have dedicated
branches; any other token starting with `-` is a short-flag cluster
whose characters after the dash are interpreted one by one; anything
else is collected as a target path. -/

structure ParseState where
  show_dots : Bool
  only_info : Bool
  appd_info : Bool
  directories : List String
deriving Repr, DecidableEq

/-- The state at the top of `run`: all flags false, no targets. -/
def initState : ParseState := ⟨false, false, false, []⟩

/-- One character of a short-flag cluster (the `match ch` at
src/src/main.rs lines 141-155): `a` sets `show_dots`; `i` sets
`only_info` only when `appd_info` is not already set; `I` sets
`appd_info` and clears `only_info`; anything else is a fatal parse
error naming the character and the whole token. -/
def flagChar (st : ParseState) (ch : Char) (arg : String) : Except String ParseState :=
  if ch = 'a' then Except.ok { st with show_dots := true }
  else if ch = 'i' then
    Except.ok (if st.appd_info then st else { st with only_info := true })
  else if ch = 'I' then
    Except.ok { st with appd_info := true, only_info := false }
  else
    Except.error ("Unknown flag used. Don\u0027t recognize flag `" ++ ch.toString ++
      "` from `" ++ arg ++ "`")

/-- The `while let Some(ch) = chars.next()` loop over a cluster. -/
def flagChars (st : ParseState) : List Char → String → Except String ParseState
  | [], _ => Except.ok st
  | ch :: rest, arg =>
      match flagChar st ch arg with
      | Except.error e => Except.error e
      | Except.ok st' => flagChars st' rest arg

/-- Effect of one non-`--help` argument on the parse state
(src/src/main.rs lines 127-160): exact-match branches for `-a`, `-i`,
`-I`, then the cluster branch for any other token starting with `-`
(its characters after the first, i.e. `chars().skip(1)`), else the
token is appended to the target list. -/
def argEffect (st : ParseState) (arg : String) : Except String ParseState :=
  if arg = "-a" then Except.ok { st with show_dots := true }
  else if arg = "-i" then
    Except.ok (if st.appd_info then st else { st with only_info := true })
  else if arg = "-I" then
    Except.ok { st with appd_info := true, only_info := false }
  else if startsWithStr arg "-" then flagChars st (arg.data.drop 1) arg
  else Except.ok { st with directories := st.directories ++ [arg] }

inductive Parsed where
  | helped
  | flags (st : ParseState)
deriving Repr, DecidableEq

/-- The argument loop of `run`: `--help` halts immediately (usage is
printed and `run` returns `Ok(true)`), a parse error aborts, otherwise
the state threads left to right. -/
def parseArgs (st : ParseState) : List String → Except String Parsed
  | [] => Except.ok (Parsed.flags st)
  | arg :: rest =>
      if arg = "--help" then Except.ok Parsed.helped
      else
        match argEffect st arg with
        | Except.error e => Except.error e
        | Except.ok st' => parseArgs st' rest

/-- The invariant of claim C9: `only_info` and `appd_info` never both set. -/
def flagsExclusive (st : ParseState) : Bool :=
  !(st.only_info && st.appd_info)

/-! ## The `run` dispatcher (src/src/main.rs lines 118-224)

Output is modelled as the sequence of write events on each stream: one
element per `println!`/`eprintln!` (and one per assembled
`display_info` line, which the source emits with `print!` pieces ending
in a `println!`).  Partial output from a `display_info` call that fails
midway is not modelled; no claim observes it. -/

structure Output where
  stdout : List String
  stderr : List String
deriving Repr, DecidableEq

def Output.empty : Output := ⟨[], []⟩

def Output.app (a b : Output) : Output :=
  ⟨a.stdout ++ b.stdout, a.stderr ++ b.stderr⟩

/-- The colored `ERROR> ` marker every `eprintln!` in `run` starts with. -/
def errTag : String := "\x1b[31;1mERROR\x1b[0m> "

def notFoundMsg : String := "Item doesn\u0027t exist!"

def usageLines (program : String) : List String :=
  ["Usage:",
   "  " ++ program ++ " [OPTION] [DIR]",
   "    -a         Option to display entries that start with `.`",
   "    -i         Option to display only the information about a directory instead of its contents",
   "    DIR        Provide directory to list contents of",
   "    --help     Display this help message"]

/-- Single-target mode (src/src/main.rs lines 168-192).  A missing
path is a fatal error; a non-directory or `only_info` target prints
`"{path}:"` then its info line; otherwise the optional append-info
line (failure downgraded to a logged error) precedes the listing. -/
def singleTarget (fs : String → Option PathMeta) (st : ParseState) (path : String) :
    Output × Except String Bool :=
  match fs path with
  | none => (Output.empty, Except.error notFoundMsg)
  | some m =>
      if !m.isDir || st.only_info then
        match display_info m "" with
        | Except.ok line => (⟨[path ++ ":", line], []⟩, Except.ok true)
        | Except.error e =>
            (⟨[path ++ ":"], []⟩, Except.error ("Failed to get metadata: " ++ e))
      else
        let infoOut : Output :=
          if st.appd_info then
            match display_info m "" with
            | Except.ok line => ⟨[line], []⟩
            | Except.error e => ⟨[], [errTag ++ "Failed to get metadata: " ++ e]⟩
          else Output.empty
        match display_dir m st.show_dots "" with
        | Except.ok lines => (infoOut.app ⟨lines, []⟩, Except.ok true)
        | Except.error e =>
            (infoOut, Except.error ("Problem happened while attempting to read directory: " ++ e))

/-- One iteration of the multi-target loop (src/src/main.rs lines
195-221), returning its output and its contribution to the `succeeded`
counter.  Note the append-info call passes spacing `""` while the
info and listing calls of the other paths pass `"  "`. -/
def multiStep (fs : String → Option PathMeta) (st : ParseState) (path : String) :
    Output × Nat :=
  let hdr : Output := ⟨[path ++ ":"], []⟩
  match fs path with
  | none => (hdr.app ⟨[], [errTag ++ notFoundMsg]⟩, 0)
  | some m =>
      if !m.isDir || st.only_info then
        match display_info m "  " with
        | Except.ok line => (hdr.app ⟨[line], []⟩, 1)
        | Except.error e => (hdr.app ⟨[], [errTag ++ "Failed to get metadata: " ++ e]⟩, 0)
      else
        let infoOut : Output :=
          if st.appd_info then
            match display_info m "" with
            | Except.ok line => ⟨[line], []⟩
            | Except.error e => ⟨[], [errTag ++ "Failed to get metadata: " ++ e]⟩
          else Output.empty
        match display_dir m st.show_dots "  " with
        | Except.ok lines => (hdr.app (infoOut.app ⟨lines, []⟩), 1)
        | Except.error e =>
            (hdr.app (infoOut.app
              ⟨[], [errTag ++ "Problem happened while attempting to read directory: " ++ e]⟩), 0)

/-- The `for path in directories` loop accumulating the counter. -/
def multiLoop (fs : String → Option PathMeta) (st : ParseState) :
    List String → Output × Nat
  | [] => (Output.empty, 0)
  | p :: rest =>
      let r := multiStep fs st p
      let r' := multiLoop fs st rest
      (r.1.app r'.1, r.2 + r'.2)

/-- Target dispatch after parsing: exactly one target runs
single-target mode, otherwise the loop runs and the result is
`Ok(succeeded > 0)`. -/
def dispatch (fs : String → Option PathMeta) (st : ParseState) (dirs : List String) :
    Output × Except String Bool :=
  match dirs with
  | [p] => singleTarget fs st p
  | _ =>
      let r := multiLoop fs st dirs
      (r.1, Except.ok (decide (0 < r.2)))

/-- Embedding of `run`: parse the flags, print usage on `--help`,
default the target list to the current directory when empty, then
dispatch on the number of targets. -/
def run (program : String) (fs : String → Option PathMeta) (args : List String) :
    Output × Except String Bool :=
  match parseArgs initState args with
  | Except.error e => (Output.empty, Except.error e)
  | Except.ok Parsed.helped => (⟨usageLines program, []⟩, Except.ok true)
  | Except.ok (Parsed.flags st) =>
      let dirs := if st.directories.isEmpty then ["./"] else st.directories
      dispatch fs st dirs

/-- A file of 5 bytes as the observations `run` can make on its path. -/
def fileMeta5 : PathMeta :=
  ⟨false, true, false, Except.error "NotADirectory", Except.ok 5, Except.ok false⟩

/-- A readable empty directory. -/
def dirMeta0 : PathMeta :=
  ⟨true, false, false, Except.ok [], Except.ok 0, Except.ok false⟩

/-- A filesystem with a single file path `present` (5 bytes). -/
def fsC7 : String → Option PathMeta :=
  fun p => if p = "present" then some fileMeta5 else none

/-- A filesystem with two empty directories `d1` and `d2`. -/
def fsC8 : String → Option PathMeta :=
  fun p => if p = "d1" then some dirMeta0
           else if p = "d2" then some dirMeta0
           else none

mutual

theorem getSize_plain (n : Node) (h : plain n = true) :
    getSize n = Except.ok (totalLen n) := by
  cases n with
  | file l => rfl
  | dir cs =>
      rw [getSize, totalLen]
      exact getSizeList_plain cs (by rw [plain] at h; exact h)
  | symlink sl t => rw [plain] at h; cases h

theorem getSizeList_plain (cs : List Node) (h : plainList cs = true) :
    getSizeList cs = Except.ok (totalLenList cs) := by
  cases cs with
  | nil => rfl
  | cons c rest =>
      rw [plainList, Bool.and_eq_true] at h
      rw [getSizeList, getSize_plain c h.1, getSizeList_plain rest h.2]
      rfl

end

theorem plainList_eq_all (cs : List Node) : plainList cs = cs.all plain := by
  induction cs with
  | nil => rfl
  | cons c rest ih => rw [plainList, List.all_cons, ih]

theorem totalLenList_eq_sum (cs : List Node) :
    totalLenList cs = (cs.map totalLen).sum := by
  induction cs with
  | nil => rfl
  | cons c rest ih => rw [totalLenList, List.map_cons, List.sum_cons, ih]

theorem getSizeList_congr_mid (pre post : List Node) (c c' : Node)
    (h : getSize c = getSize c') :
    getSizeList (pre ++ c :: post) = getSizeList (pre ++ c' :: post) := by
  induction pre with
  | nil => rw [List.nil_append, List.nil_append, getSizeList, getSizeList, h]
  | cons a rest ih => rw [List.cons_append, List.cons_append, getSizeList, getSizeList, ih]

theorem collectEntries_drop_error (show_dots : Bool)
    (es₁ es₂ : List (Except String Entry)) (msg : String)
    (folders files : List String) :
    collectEntries show_dots (es₁ ++ Except.error msg :: es₂) folders files =
    collectEntries show_dots (es₁ ++ es₂) folders files := by
  induction es₁ generalizing folders files with
  | nil => rfl
  | cons e rest ih =>
      rw [List.cons_append, List.cons_append]
      simp only [collectEntries]
      cases e with
      | error _ => exact ih _ _
      | ok entry =>
          by_cases hdot : (!show_dots && startsWithStr entry.name ".") = true
          · simp only [hdot, if_true]
            exact ih _ _
          · simp only [eq_false_of_ne_true hdot, if_false]
            cases entry.fileTypeIsDir with
            | error _ => rfl
            | ok b => cases b <;> simp only [if_true, if_false] <;> exact ih _ _

/-- C5: a child entry whose individual read fails (an `Err` item from
`read_dir`) is silently skipped: deleting it from the entry sequence
changes nothing, so it reaches neither output sequence, produces no
error, and never makes the whole call fail. -/
theorem C5_failed_entry_silently_skipped :
    ∀ (es₁ es₂ : List (Except String Entry)) (msg : String)
      (show_dots : Bool) (spacing : String),
      displayDirEntries (es₁ ++ Except.error msg :: es₂) show_dots spacing =
      displayDirEntries (es₁ ++ es₂) show_dots spacing := by
  intro es₁ es₂ msg show_dots spacing
  rw [displayDirEntries, displayDirEntries, collectEntries_drop_error]

theorem surviving_error (sd : Bool) (msg : String) (rest : List (Except String Entry)) :
    surviving sd (Except.error msg :: rest) = surviving sd rest := rfl

theorem surviving_ok_skip (sd : Bool) (entry : Entry) (rest : List (Except String Entry))
    (h : (!sd && startsWithStr entry.name ".") = true) :
    surviving sd (Except.ok entry :: rest) = surviving sd rest := by
  rw [surviving, if_pos h]

theorem surviving_ok_keep (sd : Bool) (entry : Entry) (rest : List (Except String Entry))
    (h : (!sd && startsWithStr entry.name ".") = false) :
    surviving sd (Except.ok entry :: rest) = entry :: surviving sd rest := by
  rw [surviving, if_neg (by rw [h]; exact Bool.false_ne_true)]

theorem collectEntries_ok_spec (sd : Bool) (entries : List (Except String Entry)) :
    ∀ fo₀ fi₀ fo fi, collectEntries sd entries fo₀ fi₀ = Except.ok (fo, fi) →
      fo = fo₀ ++ ((surviving sd entries).filter
              (fun e => isOkTrue e.fileTypeIsDir)).map Entry.path ∧
      fi = fi₀ ++ ((surviving sd entries).filter
              (fun e => isOkFalse e.fileTypeIsDir)).map Entry.path ∧
      ∀ e ∈ surviving sd entries, ∃ b, e.fileTypeIsDir = Except.ok b := by
  induction entries with
  | nil =>
      intro fo₀ fi₀ fo fi h
      simp only [collectEntries, Except.ok.injEq, Prod.mk.injEq] at h
      obtain ⟨rfl, rfl⟩ := h
      simp [surviving]
  | cons e rest ih =>
      intro fo₀ fi₀ fo fi h
      cases e with
      | error msg =>
          simp only [collectEntries] at h
          have hres := ih fo₀ fi₀ fo fi h
          rw [surviving_error]
          exact hres
      | ok entry =>
          simp only [collectEntries] at h
          by_cases hdot : (!sd && startsWithStr entry.name ".") = true
          · rw [if_pos hdot] at h
            have hres := ih fo₀ fi₀ fo fi h
            rw [surviving_ok_skip sd entry rest hdot]
            exact hres
          · have hdot' : (!sd && startsWithStr entry.name ".") = false :=
              eq_false_of_ne_true hdot
            rw [if_neg hdot] at h
            rw [surviving_ok_keep sd entry rest hdot']
            split at h
            · exact absurd h (by simp)
            · rename_i b heq
              cases b with
              | true =>
                  rw [if_pos rfl] at h
                  obtain ⟨h1, h2, h3⟩ := ih _ _ _ _ h
                  refine ⟨?_, ?_, ?_⟩
                  · rw [h1, List.filter_cons_of_pos, List.map_cons,
                        List.append_assoc, List.singleton_append]
                    simp [isOkTrue, heq]
                  · rw [h2, List.filter_cons_of_neg]
                    simp [isOkFalse, heq]
                  · intro e he
                    rcases List.mem_cons.mp he with rfl | he'
                    · exact ⟨true, heq⟩
                    · exact h3 e he'
              | false =>
                  rw [if_neg (by simp)] at h
                  obtain ⟨h1, h2, h3⟩ := ih _ _ _ _ h
                  refine ⟨?_, ?_, ?_⟩
                  · rw [h1, List.filter_cons_of_neg]
                    simp [isOkTrue, heq]
                  · rw [h2, List.filter_cons_of_pos, List.map_cons,
                        List.append_assoc, List.singleton_append]
                    simp [isOkFalse, heq]
                  · intro e he
                    rcases List.mem_cons.mp he with rfl | he'
                    · exact ⟨false, heq⟩
                    · exact h3 e he'

/-- C6: when the collection loop succeeds, the folder sequence is
exactly the paths of the surviving entries whose file-type check says
directory, the file sequence is exactly the paths of those whose check
says non-directory (so each surviving entry lands in exactly one of
the two, never both, never neither — every surviving entry has a
successful file-type check), and the rendering is all folder lines
first, then all file lines, each in enumeration order. -/
theorem C6_partition_and_render_order :
    ∀ (entries : List (Except String Entry)) (show_dots : Bool)
      (folders files : List String),
      collectEntries show_dots entries [] [] = Except.ok (folders, files) →
      folders = ((surviving show_dots entries).filter
              (fun e => isOkTrue e.fileTypeIsDir)).map Entry.path ∧
      files = ((surviving show_dots entries).filter
              (fun e => isOkFalse e.fileTypeIsDir)).map Entry.path ∧
      (∀ e ∈ surviving show_dots entries, ∃ b, e.fileTypeIsDir = Except.ok b) ∧
      (∀ (e : Entry), isOkTrue e.fileTypeIsDir = true → isOkFalse e.fileTypeIsDir = false) ∧
      ∀ spacing, displayDirEntries entries show_dots spacing =
        Except.ok (folders.map (folderLine spacing) ++ files.map (fileLine spacing)) := by
  intro entries show_dots folders files h
  obtain ⟨h1, h2, h3⟩ := collectEntries_ok_spec show_dots entries [] [] folders files h
  refine ⟨by simpa using h1, by simpa using h2, h3, ?_, ?_⟩
  · intro e ht
    cases hft : e.fileTypeIsDir with
    | error msg => rw [hft] at ht; exact absurd ht (by simp [isOkTrue])
    | ok b =>
        cases b with
        | true => simp [isOkFalse, hft]
        | false => rw [hft] at ht; exact absurd ht (by simp [isOkTrue])
  · intro spacing
    simp only [displayDirEntries, h]

/-- C6 witness: a concrete two-entry directory, one subdirectory and
one file, pushed through the theorem. -/
theorem C6_partition_and_render_order_witness :
    collectEntries false
        [Except.ok ⟨"a", "d/a", Except.ok true⟩,
         Except.ok ⟨"b", "d/b", Except.ok false⟩] [] [] =
      Except.ok (["d/a"], ["d/b"]) ∧
    ["d/a"] = ((surviving false
        [Except.ok ⟨"a", "d/a", Except.ok true⟩,
         Except.ok ⟨"b", "d/b", Except.ok false⟩]).filter
          (fun e => isOkTrue e.fileTypeIsDir)).map Entry.path ∧
    displayDirEntries
        [Except.ok ⟨"a", "d/a", Except.ok true⟩,
         Except.ok ⟨"b", "d/b", Except.ok false⟩] false "" =
      Except.ok ["\x1b[36md/a\x1b[0m", "\x1b[39md/b\x1b[0m"] := by
  have h : collectEntries false
      [Except.ok ⟨"a", "d/a", Except.ok true⟩,
       Except.ok ⟨"b", "d/b", Except.ok false⟩] [] [] =
      Except.ok (["d/a"], ["d/b"]) := rfl
  have hall := C6_partition_and_render_order _ false _ _ h
  exact ⟨h, hall.1, by rw [hall.2.2.2.2 ""]; rfl⟩

/-- C1: the claim says the TB threshold is 10^12 bytes and that
`pretty_format_bytes 10_000_000_000_000 = "10.000TB"`.  The code's
`TERABYTE` constant is `1_000_000_000_0.0` = 10^10, contradicting its
own doc comment (`1 TB = 10^12 bytes`): 10^13 bytes renders as
`"1000.000TB"`, not `"10.000TB"`, and 10^10 bytes already renders as
`"1.000TB"` instead of the `"10.000GB"` the claimed thresholds give.
The sub-TB examples of the claim do hold. -/
theorem C1_terabyte_threshold_code_bug :
    pretty_format_bytes 999 = "999B" ∧
    pretty_format_bytes 1000 = "1.000KB" ∧
    pretty_format_bytes 1000000 = "1.000MB" ∧
    pretty_format_bytes 1000000000 = "1.000GB" ∧
    TERABYTE = 10000000000 ∧
    pretty_format_bytes 10000000000000 = "1000.000TB" ∧
    pretty_format_bytes 10000000000000 ≠ "10.000TB" ∧
    pretty_format_bytes 10000000000 = "1.000TB" := by
  refine ⟨rfl, rfl, rfl, rfl, rfl, rfl, ?_, rfl⟩
  intro h
  rw [show pretty_format_bytes 10000000000000 = "1000.000TB" from rfl] at h
  exact absurd h (by decide)

/-- C2: on a tree containing only regular files and subdirectories,
`get_size` of a directory returns `Ok` of the sum of all file lengths
transitively under it, the result is invariant under permuting the
children (enumeration order), and `get_size` of a regular file is `Ok`
of exactly that file's metadata length. -/
theorem C2_get_size_plain_tree :
    (∀ n, plain n = true → getSize n = Except.ok (totalLen n)) ∧
    (∀ cs cs', plainList cs = true → List.Perm cs cs' →
       getSize (Node.dir cs) = getSize (Node.dir cs')) ∧
    (∀ l, getSize (Node.file l) = Except.ok l) := by
  refine ⟨getSize_plain, ?_, fun l => rfl⟩
  intro cs cs' hp hperm
  have hp' : plainList cs' = true := by
    rw [plainList_eq_all, List.all_eq_true] at hp ⊢
    intro x hx
    exact hp x (hperm.mem_iff.mpr hx)
  have h1 := getSize_plain (Node.dir cs) (by rw [plain]; exact hp)
  have h2 := getSize_plain (Node.dir cs') (by rw [plain]; exact hp')
  rw [h1, h2, totalLen, totalLen, totalLenList_eq_sum, totalLenList_eq_sum,
      (hperm.map totalLen).sum_eq]

/-- C2 witness: a concrete plain tree evaluated through the theorem. -/
theorem C2_get_size_plain_tree_witness :
    plain (Node.dir [Node.file 3, Node.dir [Node.file 4], Node.file 5]) = true ∧
    getSize (Node.dir [Node.file 3, Node.dir [Node.file 4], Node.file 5]) =
      Except.ok (totalLen (Node.dir [Node.file 3, Node.dir [Node.file 4], Node.file 5])) ∧
    getSize (Node.dir [Node.file 3, Node.dir [Node.file 4], Node.file 5]) =
      getSize (Node.dir [Node.dir [Node.file 4], Node.file 3, Node.file 5]) :=
  ⟨rfl, C2_get_size_plain_tree.1 _ rfl,
    C2_get_size_plain_tree.2.1 _ _ rfl (List.Perm.swap _ _ _)⟩

/-- C3 counterexample: a directory whose only child is a symlink of
link-length 5 pointing at a file of length 100.  `get_size` adds 100
(the target's metadata length, because `Path::metadata` follows
symlinks), not the 5 the claim requires. -/
theorem C3_counterexample_symlink_length :
    getSize (Node.dir [Node.symlink 5 (some (Node.file 100))]) = Except.ok 100 ∧
    getSize (Node.dir [Node.symlink 5 (some (Node.file 100))]) ≠ Except.ok 5 := by
  have h1 : getSize (Node.dir [Node.symlink 5 (some (Node.file 100))]) = Except.ok 100 := rfl
  refine ⟨h1, ?_⟩
  rw [h1]
  intro h
  injection h with h'
  exact absurd h' (by decide)

/-- C3 amended: for a non-directory child the length added is the
metadata length obtained by following symlinks, so a symlink child
contributes exactly what its target would contribute in its place (the
link's own length is never read). -/
theorem C3_amended_symlink_contributes_target :
    ∀ (pre post : List Node) (sl : Nat) (tgt : Node),
      getSize (Node.dir (pre ++ Node.symlink sl (some tgt) :: post)) =
      getSize (Node.dir (pre ++ tgt :: post)) := by
  intro pre post sl tgt
  show getSizeList (pre ++ Node.symlink sl (some tgt) :: post) =
       getSizeList (pre ++ tgt :: post)
  exact getSizeList_congr_mid pre post _ tgt rfl

/-- C4: `-I` always sets `appd_info` and clears `only_info`; `-i` sets
`only_info` only when `appd_info` is not already set and is a no-op
otherwise — both for the exact tokens and for cluster characters — and
parsing `-i -I -i` ends with `only_info = false, appd_info = true`. -/
theorem C4_flag_precedence_asymmetric :
    (∀ st : ParseState,
       argEffect st "-I" = Except.ok { st with appd_info := true, only_info := false }) ∧
    (∀ st : ParseState, st.appd_info = true → argEffect st "-i" = Except.ok st) ∧
    (∀ st : ParseState, st.appd_info = false →
       argEffect st "-i" = Except.ok { st with only_info := true }) ∧
    (∀ (st : ParseState) (arg : String),
       flagChar st 'I' arg = Except.ok { st with appd_info := true, only_info := false }) ∧
    (∀ (st : ParseState) (arg : String), st.appd_info = true →
       flagChar st 'i' arg = Except.ok st) ∧
    (∀ (st : ParseState) (arg : String), st.appd_info = false →
       flagChar st 'i' arg = Except.ok { st with only_info := true }) ∧
    parseArgs initState ["-i", "-I", "-i"] =
      Except.ok (Parsed.flags ⟨false, false, true, []⟩) := by
  refine ⟨fun st => rfl, fun st h => ?_, fun st h => ?_, fun st arg => rfl,
    fun st arg h => ?_, fun st arg h => ?_, rfl⟩
  · show Except.ok (if st.appd_info then st else { st with only_info := true }) =
      Except.ok st
    rw [if_pos h]
  · show Except.ok (if st.appd_info then st else { st with only_info := true }) =
      Except.ok { st with only_info := true }
    rw [if_neg (by rw [h]; exact Bool.false_ne_true)]
  · show Except.ok (if st.appd_info then st else { st with only_info := true }) =
      Except.ok st
    rw [if_pos h]
  · show Except.ok (if st.appd_info then st else { st with only_info := true }) =
      Except.ok { st with only_info := true }
    rw [if_neg (by rw [h]; exact Bool.false_ne_true)]

/-- C4 witness: the hypotheses discharged at concrete states. -/
theorem C4_flag_precedence_asymmetric_witness :
    ParseState.appd_info ⟨false, false, true, []⟩ = true ∧
    argEffect ⟨false, false, true, []⟩ "-i" = Except.ok ⟨false, false, true, []⟩ ∧
    ParseState.appd_info ⟨false, false, false, []⟩ = false ∧
    argEffect ⟨false, false, false, []⟩ "-i" = Except.ok ⟨false, true, false, []⟩ :=
  ⟨rfl, C4_flag_precedence_asymmetric.2.1 ⟨false, false, true, []⟩ rfl, rfl,
    C4_flag_precedence_asymmetric.2.2.1 ⟨false, false, false, []⟩ rfl⟩

theorem flagChar_exclusive (st : ParseState) (ch : Char) (arg : String)
    (st' : ParseState) (h : flagsExclusive st = true)
    (hstep : flagChar st ch arg = Except.ok st') : flagsExclusive st' = true := by
  unfold flagChar at hstep
  split_ifs at hstep with h1 h2 h3 h4
  · injection hstep with h'
    subst h'
    simpa [flagsExclusive] using h
  · injection hstep with h'
    subst h'
    exact h
  · injection hstep with h'
    subst h'
    simp [flagsExclusive, eq_false_of_ne_true h3]
  · injection hstep with h'
    subst h'
    simp [flagsExclusive]

theorem flagChars_exclusive (chars : List Char) :
    ∀ (st : ParseState) (arg : String) (st' : ParseState),
      flagsExclusive st = true → flagChars st chars arg = Except.ok st' →
      flagsExclusive st' = true := by
  induction chars with
  | nil =>
      intro st arg st' h hstep
      simp only [flagChars] at hstep
      injection hstep with h'
      subst h'
      exact h
  | cons ch rest ih =>
      intro st arg st' h hstep
      simp only [flagChars] at hstep
      split at hstep
      · exact absurd hstep (by simp)
      · rename_i stMid hmid
        exact ih stMid arg st' (flagChar_exclusive st ch arg stMid h hmid) hstep

theorem argEffect_exclusive (st : ParseState) (arg : String) (st' : ParseState)
    (h : flagsExclusive st = true) (hstep : argEffect st arg = Except.ok st') :
    flagsExclusive st' = true := by
  unfold argEffect at hstep
  split_ifs at hstep with h1 h2 h3 h4 h5
  · injection hstep with h'
    subst h'
    simpa [flagsExclusive] using h
  · injection hstep with h'
    subst h'
    exact h
  · injection hstep with h'
    subst h'
    simp [flagsExclusive, eq_false_of_ne_true h3]
  · injection hstep with h'
    subst h'
    simp [flagsExclusive]
  · exact flagChars_exclusive _ st arg st' h hstep
  · injection hstep with h'
    subst h'
    simpa [flagsExclusive] using h

theorem parseArgs_exclusive (args : List String) :
    ∀ (st₀ st : ParseState), flagsExclusive st₀ = true →
      parseArgs st₀ args = Except.ok (Parsed.flags st) → flagsExclusive st = true := by
  induction args with
  | nil =>
      intro st₀ st h hrun
      simp only [parseArgs] at hrun
      injection hrun with h'
      injection h' with h''
      subst h''
      exact h
  | cons arg rest ih =>
      intro st₀ st h hrun
      simp only [parseArgs] at hrun
      split_ifs at hrun
      · exact absurd hrun (by simp)
      · split at hrun
        · exact absurd hrun (by simp)
        · rename_i stMid hmid
          exact ih stMid st (argEffect_exclusive st₀ arg stMid h hmid) hrun

/-- C9: `only_info` and `appd_info` are never both set: the invariant
is preserved by every single cluster character, by every whole
argument, and holds for the state flag parsing ends with. -/
theorem C9_flags_mutually_exclusive :
    (∀ (st : ParseState) (ch : Char) (arg : String) (st' : ParseState),
       flagsExclusive st = true → flagChar st ch arg = Except.ok st' →
       flagsExclusive st' = true) ∧
    (∀ (st : ParseState) (arg : String) (st' : ParseState),
       flagsExclusive st = true → argEffect st arg = Except.ok st' →
       flagsExclusive st' = true) ∧
    (∀ (args : List String) (st : ParseState),
       parseArgs initState args = Except.ok (Parsed.flags st) →
       flagsExclusive st = true) :=
  ⟨flagChar_exclusive, argEffect_exclusive,
    fun args st h => parseArgs_exclusive args initState st rfl h⟩

/-- C9 witness: the invariant evaluated through the theorem on the
state that `-a -i` parses to. -/
theorem C9_flags_mutually_exclusive_witness :
    parseArgs initState ["-a", "-i"] =
      Except.ok (Parsed.flags ⟨true, true, false, []⟩) ∧
    flagsExclusive ⟨true, true, false, []⟩ = true :=
  ⟨rfl, C9_flags_mutually_exclusive.2.2 ["-a", "-i"] ⟨true, true, false, []⟩ rfl⟩

/-- C10: the lone token `-` reaches the cluster branch with an empty
character iterator, so it changes nothing: no flag is set, it is not
collected as a target, and no parse error is produced; parsing it
alone, or before a target, behaves as if it were absent. -/
theorem C10_lone_dash_is_silent_noop :
    (∀ st : ParseState, argEffect st "-" = Except.ok st) ∧
    parseArgs initState ["-"] = Except.ok (Parsed.flags initState) ∧
    parseArgs initState ["-", "x"] =
      Except.ok (Parsed.flags ⟨false, false, false, ["x"]⟩) :=
  ⟨fun _ => rfl, rfl, rfl⟩

theorem multiLoop_pos (fs : String → Option PathMeta) (st : ParseState) :
    ∀ dirs : List String,
      0 < (multiLoop fs st dirs).2 ↔ ∃ p ∈ dirs, 0 < (multiStep fs st p).2 := by
  intro dirs
  induction dirs with
  | nil => simp [multiLoop]
  | cons p rest ih =>
      simp only [multiLoop, List.mem_cons]
      constructor
      · intro h
        by_cases hp : 0 < (multiStep fs st p).2
        · exact ⟨p, Or.inl rfl, hp⟩
        · have hp0 : (multiStep fs st p).2 = 0 := by omega
          have hr : 0 < (multiLoop fs st rest).2 := by omega
          obtain ⟨q, hq, hq'⟩ := ih.mp hr
          exact ⟨q, Or.inr hq, hq'⟩
      · intro ⟨q, hq, hq'⟩
        rcases hq with rfl | hq
        · omega
        · have := ih.mpr ⟨q, hq, hq'⟩
          omega

/-- C7: a nonexistent target in the multi-target loop produces exactly
the header and one not-found error line and contributes no success,
the loop's output and counter are the concatenation and sum of the
per-target results (so targets are independent), the dispatcher with
two or more targets returns `Ok(true)` exactly when some target
succeeded, and the concrete scenario (first target missing, second a
valid file) returns success with exactly one not-found message. -/
theorem C7_multi_target_partial_failure :
    (∀ (fs : String → Option PathMeta) (st : ParseState) (p : String),
       fs p = none →
       multiStep fs st p = (⟨[p ++ ":"], [errTag ++ notFoundMsg]⟩, 0)) ∧
    (∀ (fs : String → Option PathMeta) (st : ParseState) (p : String)
       (rest : List String),
       multiLoop fs st (p :: rest) =
         ((multiStep fs st p).1.app (multiLoop fs st rest).1,
          (multiStep fs st p).2 + (multiLoop fs st rest).2)) ∧
    (∀ (fs : String → Option PathMeta) (st : ParseState) (dirs : List String),
       2 ≤ dirs.length →
       ((dispatch fs st dirs).2 = Except.ok true ↔
         ∃ p ∈ dirs, 0 < (multiStep fs st p).2)) ∧
    run "iz" fsC7 ["missing", "present"] =
      (⟨["missing:", "present:", "  Type: `File` - Size: 5B - ReadOnly: false"],
        [errTag ++ notFoundMsg]⟩, Except.ok true) := by
  refine ⟨?_, fun fs st p rest => rfl, ?_, rfl⟩
  · intro fs st p h
    simp only [multiStep, h]
    rfl
  · intro fs st dirs hlen
    match dirs with
    | [] => simp at hlen
    | [p] => simp at hlen
    | p :: q :: rest =>
        show Except.ok (decide (0 < (multiLoop fs st (p :: q :: rest)).2)) =
            Except.ok true ↔ _
        rw [← multiLoop_pos fs st (p :: q :: rest)]
        constructor
        · intro h
          injection h with h'
          exact of_decide_eq_true h'
        · intro h
          rw [decide_eq_true h]

/-- C7 witness: the theorem applied to the concrete scenario. -/
theorem C7_multi_target_partial_failure_witness :
    multiStep fsC7 initState "missing" =
      (⟨["missing:"], [errTag ++ notFoundMsg]⟩, 0) ∧
    ((dispatch fsC7 initState ["missing", "present"]).2 = Except.ok true ↔
      ∃ p ∈ ["missing", "present"], 0 < (multiStep fsC7 initState p).2) ∧
    (dispatch fsC7 initState ["missing", "present"]).2 = Except.ok true :=
  ⟨C7_multi_target_partial_failure.1 fsC7 initState "missing" rfl,
   C7_multi_target_partial_failure.2.2.1 fsC7 initState ["missing", "present"]
     (by decide),
   (C7_multi_target_partial_failure.2.2.1 fsC7 initState ["missing", "present"]
     (by decide)).mpr
     ⟨"present", by simp, by rw [show (multiStep fsC7 initState "present").2 = 1 from rfl]; omega⟩⟩

/-- C8 counterexample: two existing directory targets with `-I`.  The
append-info metadata line is emitted with no indent at all (the source
passes `""` at line 211), refuting the claim that every detail line,
including that one, carries the two-space prefix. -/
theorem C8_counterexample_append_info_line_unindented :
    (run "iz" fsC8 ["-I", "d1", "d2"]).1.stdout =
      ["d1:", "Type: `Dir` - Entries Count: 0 - Size: 0B - ReadOnly: false",
       "d2:", "Type: `Dir` - Entries Count: 0 - Size: 0B - ReadOnly: false"] ∧
    startsWithStr "Type: `Dir` - Entries Count: 0 - Size: 0B - ReadOnly: false" "  " =
      false :=
  ⟨rfl, rfl⟩

/-- C8 amended: in multi-target mode the info line of a non-directory
or `only_info` target and every directory-listing line are printed
with the two-space indent, but the append-info metadata line of a
directory target is printed with no indent; `display_info` prepends
exactly its spacing argument to a spacing-independent core, and every
line `display_dir` emits starts with its spacing argument. -/
theorem C8_amended_two_space_indent_except_append_info :
    (∀ (fs : String → Option PathMeta) (st : ParseState) (p : String)
       (m : PathMeta) (line : String),
       fs p = some m → (!m.isDir || st.only_info) = true →
       display_info m "  " = Except.ok line →
       multiStep fs st p = (⟨[p ++ ":", line], []⟩, 1)) ∧
    (∀ (fs : String → Option PathMeta) (st : ParseState) (p : String)
       (m : PathMeta) (line : String) (lines : List String),
       fs p = some m → (!m.isDir || st.only_info) = false → st.appd_info = true →
       display_info m "" = Except.ok line →
       display_dir m st.show_dots "  " = Except.ok lines →
       multiStep fs st p = (⟨(p ++ ":") :: line :: lines, []⟩, 1)) ∧
    (∀ (m : PathMeta) (s line : String),
       display_info m s = Except.ok line →
       ∃ core, displayInfoCore m = Except.ok core ∧ line = s ++ core) ∧
    (∀ (m : PathMeta) (sd : Bool) (s : String) (lines : List String),
       display_dir m sd s = Except.ok lines →
       ∀ l ∈ lines, ∃ t, l = s ++ t) := by
  refine ⟨?_, ?_, ?_, ?_⟩
  · intro fs st p m line hfs hc hdi
    simp only [multiStep, hfs, hc, hdi]
    rfl
  · intro fs st p m line lines hfs hc ha hdi hdd
    simp only [multiStep, hfs, hc, ha, hdi, hdd]
    simp [Output.app]
  · intro m s line hdi
    unfold display_info at hdi
    cases hcore : displayInfoCore m with
    | error e => rw [hcore] at hdi; exact absurd hdi (by simp [Except.map])
    | ok core =>
        rw [hcore] at hdi
        simp only [Except.map] at hdi
        injection hdi with h'
        exact ⟨core, rfl, h'.symm⟩
  · intro m sd s lines hdd
    unfold display_dir at hdd
    split at hdd
    · exact absurd hdd (by simp)
    · rename_i entries hrd
      unfold displayDirEntries at hdd
      split at hdd
      · exact absurd hdd (by simp)
      · rename_i pr hcoll
        injection hdd with h'
        subst h'
        intro l hl
        rcases List.mem_append.mp hl with hm | hm
        · obtain ⟨q, hq, rfl⟩ := List.mem_map.mp hm
          exact ⟨_, rfl⟩
        · obtain ⟨q, hq, rfl⟩ := List.mem_map.mp hm
          exact ⟨_, rfl⟩

/-- C8 witness: the amended theorem applied to the concrete filesystems. -/
theorem C8_amended_two_space_indent_except_append_info_witness :
    multiStep fsC7 initState "present" =
      (⟨["present:", "  Type: `File` - Size: 5B - ReadOnly: false"], []⟩, 1) ∧
    multiStep fsC8 ⟨false, false, true, []⟩ "d1" =
      (⟨["d1:", "Type: `Dir` - Entries Count: 0 - Size: 0B - ReadOnly: false"], []⟩, 1) :=
  ⟨C8_amended_two_space_indent_except_append_info.1 fsC7 initState "present"
     fileMeta5 _ rfl rfl rfl,
   C8_amended_two_space_indent_except_append_info.2.1 fsC8 ⟨false, false, true, []⟩
     "d1" dirMeta0 _ [] rfl rfl rfl rfl rfl⟩

end Iz
